import Mathlib

/-!
Shallow embedding of the hapi-hooks job scheduler (firstandthird/hapi-hooks)
and proofs about its specified behaviour.

The embedded code:
  - src/index.js: the poll loop (timer / updateHooks), the per-job pipeline
    (logHook, performActions, completeHook), and the hook enqueue method;
  - src/unnamed/part_000: the newer plugin entry whose timer applies
    backpressure via a processing count before fetching a batch;
  - src/unnamed/part_001: lib/logHooks.js (hookStatus count, backpressure
    gate, batch query with runAfter and batchSize) and lib/queryHooks.js;
  - src/lib/retry.js: the retry entry point (whose exported function body
    is empty in the source).

JavaScript objects that only ever serve as string-keyed records are
embedded as association lists with first-match lookup; machine times are
Nat; the single-threaded event loop makes each callback body one atomic
transition in the scheduler model.
-/

namespace HapiHooks

/-- A JS object used as a plain record: association list, first key wins
on lookup (insertion at the front overrides). -/
abbrev Obj := List (String × String)

/-- Key lookup in a record: first matching key from the left. -/
def tableLookup {α : Type} (t : List (String × α)) (k : String) : Option α :=
  match t with
  | [] => none
  | (k₀, v) :: rest => if k₀ = k then some v else tableLookup rest k

/-- Result delivered by a handler callback: (error, output) with exactly one
side populated, as the node-style callbacks in src use them. -/
inductive ExecResult
  | ok (output : String)
  | err (error : String)
deriving DecidableEq

/-- Behaviour of a server method resolved by get(server.methods, path) in
src/index.js line 90: either an async handler that calls back after
`duration` time units, or something whose invocation throws synchronously
(for instance when the path resolves to undefined). -/
inductive MethodBehavior
  | runs (duration : Nat) (result : ExecResult)
  | throwsSync (name message : String)
deriving DecidableEq

/-- The host environment an action executes against: the server method
table, and the evaluator str2fn.execute used for call-expression actions
(src/index.js line 77), given as its callback latency and callback value. -/
structure Env where
  methods : String → MethodBehavior
  callExpr : String → Nat × ExecResult

/-- One entry of a configured action list (settings.hooks[name]):
either a bare identifier string, or an object pairing a method identifier
with default data (src/index.js lines 70-73). -/
inductive ActionConfig
  | str (s : String)
  | obj (method : String) (data : Obj)
deriving DecidableEq

/-- The identifier string an action entry is coerced to before dispatch:
src/index.js line 72, action = action.method for object entries. -/
def methodName : ActionConfig → String
  | .str s => s
  | .obj m _ => m

/-- The call-expression test of src/index.js line 76:
action[action.length - 1] === «closing paren» and action.indexOf of the
opening paren is > -1, i.e. the string ends in a closing parenthesis and
contains an opening parenthesis somewhere. -/
def isCallExpr (s : String) : Bool :=
  (s.data.getLast? == some ')') && s.data.contains '('

/-- The outcome recorded for one action in updateHook.results:
either an output entry or an error entry (src/index.js lines 78-105). -/
inductive EntryOutcome
  | output (o : String)
  | error (e : String)
deriving DecidableEq

/-- One element pushed onto updateHook.results. -/
structure ResultEntry where
  action : String
  outcome : EntryOutcome
deriving DecidableEq

/-- Whether a result entry is an error entry. -/
def isErrorEntry (r : ResultEntry) : Bool :=
  match r.outcome with
  | .error _ => true
  | .output _ => false

/-- How src/index.js invokes one action (lines 74-90): call-expression
identifiers go to str2fn.execute directly; everything else is looked up in
server.methods and, iff settings.timeout is truthy, wrapped with
async.timeout. `wrapped` records whether the async.timeout wrapper is
applied around the call. -/
inductive CallPlan
  | str2fnCall (expr : String)
  | methodCall (path : String) (wrapped : Bool)
deriving DecidableEq

/-- Dispatch of src/index.js lines 70-90 as a plan: coerce an object entry
to its method string, test for a call expression, and only in the plain
method branch consult settings.timeout (truthy iff nonzero) for the
async.timeout wrapper. -/
def planAction (timeout : Nat) (a : ActionConfig) : CallPlan :=
  let action := methodName a
  if isCallExpr action then CallPlan.str2fnCall action
  else CallPlan.methodCall action (timeout != 0)

/-- Whether a planned call runs under the async.timeout deadline. -/
def planWrapped : CallPlan → Bool
  | .str2fnCall _ => false
  | .methodCall _ w => w

/-- Execution of one action, src/index.js lines 70-105: the entry pushed
onto updateHook.results for this action. Call expressions receive whatever
str2fn.execute calls back with, with no deadline. Plain paths resolve in
server.methods; a synchronous throw is caught and recorded as
`name message ` (line 103, note the trailing space); a handler wrapped by
async.timeout whose duration exceeds the truthy timeout is recorded with
the ETIMEDOUT error async.timeout delivers (modelled by the token
"ETIMEDOUT"); otherwise the handler's own callback value is recorded. -/
def runAction (timeout : Nat) (env : Env) (a : ActionConfig) : ResultEntry :=
  if isCallExpr (methodName a) then
    match (env.callExpr (methodName a)).2 with
    | .ok o => ⟨methodName a, .output o⟩
    | .err e => ⟨methodName a, .error e⟩
  else
    match env.methods (methodName a) with
    | .throwsSync n m => ⟨methodName a, .error (n ++ " " ++ m ++ " ")⟩
    | .runs d res =>
      if timeout ≠ 0 ∧ timeout < d then ⟨methodName a, .error "ETIMEDOUT"⟩
      else
        match res with
        | .ok o => ⟨methodName a, .output o⟩
        | .err e => ⟨methodName a, .error e⟩

/-- The accumulator object updateHook of src/index.js lines 64-66:
results collected so far, and the status field, which starts absent and is
assigned "failed" whenever an error entry is pushed. -/
structure UpdateHook where
  results : List ResultEntry
  status : Option String
deriving DecidableEq

/-- One completion callback's effect on updateHook (src/index.js
lines 78-84 and 93-105): push the entry; on an error entry also set
status to "failed". -/
def pushResult (u : UpdateHook) (r : ResultEntry) : UpdateHook :=
  if isErrorEntry r then ⟨u.results ++ [r], some "failed"⟩
  else ⟨u.results ++ [r], u.status⟩

/-- performActions, src/index.js lines 62-111: async.each starts every
action of the list concurrently and each action's completion callback
pushes its entry onto updateHook.results, so the entries land in the order
the handlers complete. `order` is that completion interleaving, given as
the sequence of declaration indices in completion order; a run of the real
code corresponds to an `order` that is a permutation of all indices. -/
def performActionsWith (timeout : Nat) (env : Env) (actions : List ActionConfig)
    (order : List Nat) : UpdateHook :=
  (order.filterMap (fun i => (actions.get? i).map (runAction timeout env))).foldl
    pushResult ⟨[], none⟩

/-- The partial update persisted by completeHook, src/index.js
lines 113-121: the collected results, the terminal status ("failed" iff
performActions set status to "failed", else "complete"), and completedOn. -/
structure CompleteUpdate where
  results : List ResultEntry
  status : String
  completedOn : Nat
deriving DecidableEq

/-- completeHook's update document, src/index.js lines 114-119. -/
def completeHookUpdate (u : UpdateHook) (now : Nat) : CompleteUpdate :=
  ⟨u.results, if u.status = some "failed" then "failed" else "complete", now⟩

/-- A persisted hook document as the batch queries see it: its store id,
status string, and runAfter time (src/unnamed/part_001 lines 166-173). -/
structure Job where
  id : Nat
  status : String
  runAfter : Nat
deriving DecidableEq

/-- Eligibility predicate of the batch query in src/unnamed/part_001
lines 166-173: status $in [waiting, failed] and runAfter $lte now. -/
def dueFilter (now : Nat) (j : Job) : Bool :=
  (j.status == "waiting" || j.status == "failed") && j.runAfter ≤ now

/-- The cursor limit applied by .limit(settings.batchSize): a MongoDB
cursor limit of 0 means no limit, so batchSize 0 (the default in
src/unnamed/part_000 line 12) leaves the result unbounded. -/
def mongoLimit (limit : Nat) (l : List Job) : List Job :=
  if limit = 0 then l else l.take limit

/-- The batch fetch of src/unnamed/part_001 lines 166-173: find the
documents matching the eligibility filter, capped by the cursor limit. -/
def findDueQuery (now limit : Nat) (store : List Job) : List Job :=
  mongoLimit limit (store.filter (dueFilter now))

/-- The hooks step of lib/logHooks.js (src/unnamed/part_001
lines 160-174): proceed is (processing count = 0); when not proceeding the
step returns the empty batch without querying, otherwise it runs the batch
query. -/
def logHooksFetch (processingCount now batch : Nat) (store : List Job) : List Job :=
  if processingCount = 0 then findDueQuery now batch store else []

/-- What one tick of the part_000 timer does (src/unnamed/part_000
lines 73-96): which jobs were fetched for execution and whether the next
tick was scheduled. -/
structure TickResult where
  fetched : List Job
  rescheduled : Bool
deriving DecidableEq

/-- The timer of src/unnamed/part_000 lines 73-96. `contStart` is the
continueProcessing flag when the timer fires (line 74), `contEnd` its
value when the queryHooks callback runs (line 92). A nonzero processing
count observed by logHooks reschedules immediately (line 86) and skips
queryHooks entirely; otherwise queryHooks fetches the due batch and the
callback reschedules iff continueProcessing is still set. -/
def timerTick (contStart contEnd : Bool) (processingCount now batch : Nat)
    (store : List Job) : TickResult :=
  if contStart = false then ⟨[], false⟩
  else if processingCount ≠ 0 then ⟨[], true⟩
  else ⟨findDueQuery now batch store, contEnd⟩

/-- The logHook step of src/index.js lines 50-60 as the automap pipeline
sees it: whether the error log line ran, and the argument passed to done.
The collection.update callback logs err when present, but then always
calls done() with no error, so doneError is none for every update
outcome. -/
structure LogHookResult where
  loggedError : Bool
  doneError : Option String
deriving DecidableEq

/-- logHook, src/index.js lines 50-60: updateErr is the error (if any)
with which collection.update called back. -/
def logHook (updateErr : Option String) : LogHookResult :=
  ⟨updateErr.isSome, none⟩

/-- The update document logHook writes, src/index.js line 51:
$set of the status field alone. -/
def logHookUpdateDoc : Obj := [("status", "processing")]

/-- automap/async semantics for the per-job pipeline of src/index.js:
the dependent task performActions runs iff the logHook task called done
without an error. -/
def logHookProceeds (r : LogHookResult) : Bool := r.doneError.isNone

/-- Whether the job's actions execute in a cycle whose status-persistence
update called back with updateErr (src/index.js lines 50-62). -/
def cycleActionsRun (updateErr : Option String) : Bool :=
  logHookProceeds (logHook updateErr)

/-- What the retry entry point could deliver to its allDone callback. -/
inductive RetryOutcome
  | notFound
  | retryExhausted
  | completedWith (results : List ResultEntry)
deriving DecidableEq

/-- The exported function of src/lib/retry.js line 7:
module.exports = (collection, hookId, allDone) => with an empty body.
It reads nothing, writes nothing, and never invokes allDone; the value is
the (unchanged) store paired with the callback invocation that never
happens (none). The remainder of the file is orphaned statements outside
any function, terminated by a stray block-comment closer, so none of it is
reachable from this export. -/
def retryModuleExport (store : List Job) (hookId : Nat) : List Job × Option RetryOutcome :=
  (store, none)

/-- A hook document as the enqueue method inserts it, src/index.js
lines 142-147: hookName, hookData, status and the added time. -/
structure HookDoc where
  hookName : String
  hookData : Obj
  status : String
  added : Nat
deriving DecidableEq

/-- The hook enqueue method of src/index.js lines 138-156: if
settings.hooks[hookName] is absent (configured action lists are arrays,
which are truthy in JS, so falsy means the key is missing) the method
returns at once and nothing is inserted and no error reaches the caller;
otherwise insertOne appends a document with status "waiting". -/
def hookMethod (hooksTable : List (String × List ActionConfig)) (name : String)
    (data : Obj) (now : Nat) (store : List HookDoc) : List HookDoc :=
  match tableLookup hooksTable name with
  | none => store
  | some _ => store ++ [⟨name, data, "waiting", now⟩]

/-- Object.assign(target, src), viewed through lookup: keys of src win
over keys of target. The same value is both the expression's result and
the new state of the mutated target. -/
def objAssign (target src : Obj) : Obj := src ++ target

/-- Executing one object-form action entry for a job, src/index.js
lines 70-73: actionData = Object.assign(action.data, hook.hookData).
First component: the registry's action.data object after the call (the
target is mutated in place); second: the actionData used for this run.
They are the same object. -/
def actionEntryRun (registryData payload : Obj) : Obj × Obj :=
  let merged := objAssign registryData payload
  (merged, merged)

/-- The registry's default-data object after one job executed the entry. -/
def registryAfter (registryData payload : Obj) : Obj :=
  (actionEntryRun registryData payload).1

/-- State of the src/index.js poll loop (lines 158-188): the
continueProcessing flag, the number of pending setTimeout(timer, interval)
callbacks, and the number of updateHooks cycles in flight. -/
structure SchedState where
  cont : Bool
  timers : Nat
  running : Nat
deriving DecidableEq

/-- Atomic transitions of the poll loop of src/index.js lines 166-187,
one per callback body the event loop can run (callback bodies are atomic
under the single-threaded event loop):
  - fireRun: a pending timer fires with continueProcessing set; it starts
    an updateHooks cycle (lines 174-179);
  - fireSkip: a pending timer fires with the flag cleared; it returns at
    once (lines 175-177);
  - completeReschedule: an updateHooks callback runs with the flag set;
    it schedules the next timer (lines 183-185);
  - completeStop: an updateHooks callback runs with the flag cleared; it
    schedules nothing (line 183);
  - stopSignal: the onPreStop extension clears the flag (lines 166-173). -/
inductive SchedStep : SchedState → SchedState → Prop
  | fireRun (t r : Nat) : SchedStep ⟨true, t + 1, r⟩ ⟨true, t, r + 1⟩
  | fireSkip (t r : Nat) : SchedStep ⟨false, t + 1, r⟩ ⟨false, t, r⟩
  | completeReschedule (t r : Nat) : SchedStep ⟨true, t, r + 1⟩ ⟨true, t + 1, r⟩
  | completeStop (t r : Nat) : SchedStep ⟨false, t, r + 1⟩ ⟨false, t, r⟩
  | stopSignal (c : Bool) (t r : Nat) : SchedStep ⟨c, t, r⟩ ⟨false, t, r⟩

/-- The state right after plugin registration: timer() is invoked once
inline (src/index.js line 188) with continueProcessing still true, so one
updateHooks cycle is in flight and no timer is pending. -/
def schedInit : SchedState := ⟨true, 0, 1⟩

/-- States the poll loop can reach from registration. -/
inductive SchedReachable : SchedState → Prop
  | init : SchedReachable schedInit
  | step {s s₁ : SchedState} : SchedReachable s → SchedStep s s₁ → SchedReachable s₁

/-- A concrete environment used to evaluate the model on sample inputs. -/
def envA : Env :=
  ⟨fun s =>
      if s = "slow.method" then MethodBehavior.runs 40000 (ExecResult.ok "slow-out")
      else if s = "b" then MethodBehavior.runs 0 (ExecResult.ok "B")
      else MethodBehavior.runs 0 (ExecResult.ok "A"),
    fun _ => (1000000000, ExecResult.ok "done")⟩

theorem foldl_pushResult_results (es : List ResultEntry) (u : UpdateHook) :
    (es.foldl pushResult u).results = u.results ++ es := by
  induction es generalizing u with
  | nil => simp
  | cons e es ih =>
    simp only [List.foldl_cons, ih]
    by_cases h : isErrorEntry e <;> simp [pushResult, h]

theorem foldl_pushResult_status (es : List ResultEntry) (u : UpdateHook) :
    (es.foldl pushResult u).status =
      if es.any isErrorEntry then some "failed" else u.status := by
  induction es generalizing u with
  | nil => simp
  | cons e es ih =>
    simp only [List.foldl_cons, ih, List.any_cons]
    by_cases h : isErrorEntry e
    · by_cases h₁ : es.any isErrorEntry <;> simp [pushResult, h, h₁]
    · simp [pushResult, h]

theorem filterMap_get_range {α β : Type} (l : List α) (f : α → β) :
    (List.range l.length).filterMap (fun i => (l.get? i).map f) = l.map f := by
  induction l with
  | nil => simp
  | cons a l ih =>
    rw [List.length_cons, List.range_succ_eq_map, List.filterMap_cons,
      List.filterMap_map]
    simp only [List.get?_cons_zero, Option.map_some]
    have h : (fun i => ((a :: l).get? i).map f) ∘ Nat.succ =
        fun i => (l.get? i).map f := by
      funext i
      simp [Function.comp]
    rw [h, ih]
    simp

theorem performActions_entries (timeout : Nat) (env : Env)
    (actions : List ActionConfig) (order : List Nat)
    (hperm : order.Perm (List.range actions.length)) :
    (performActionsWith timeout env actions order).results.Perm
      (actions.map (runAction timeout env)) := by
  unfold performActionsWith
  rw [foldl_pushResult_results]
  simp only [List.nil_append]
  have h := hperm.filterMap (fun i => (actions.get? i).map (runAction timeout env))
  rwa [filterMap_get_range] at h

/-- Claim C1, amended: for a job with N configured actions, the results
sequence persisted at the terminal status has exactly N entries, one per
configured action (it is a permutation of the per-action entries); the
entries appear in the order the action handlers complete, which need not
be the declaration order. -/
theorem c1_results_one_per_action (t : Nat) (env : Env) (actions : List ActionConfig)
    (order : List Nat) (now : Nat)
    (hperm : order.Perm (List.range actions.length)) :
    (completeHookUpdate (performActionsWith t env actions order) now).results.Perm
      (actions.map (runAction t env))
    ∧ (completeHookUpdate (performActionsWith t env actions order) now).results.length
        = actions.length := by
  have h := performActions_entries t env actions order hperm
  refine ⟨h, ?_⟩
  have hl : (performActionsWith t env actions order).results.length = actions.length := by
    rw [h.length_eq, List.length_map]
  simpa [completeHookUpdate] using hl

/-- Claim C1, counterexample to the declaration-order conjunct: with two
actions a and b and the completion interleaving in which b's handler
completes first, the persisted results list the entry for b before the
entry for a, not in declaration order. -/
theorem c1_declaration_order_counterexample :
    ([1, 0] : List Nat).Perm (List.range 2)
    ∧ (completeHookUpdate
        (performActionsWith 0 envA [ActionConfig.str "a", ActionConfig.str "b"] [1, 0])
        0).results
      ≠ [ActionConfig.str "a", ActionConfig.str "b"].map (runAction 0 envA) := by
  constructor
  · decide
  · decide

/-- Witness for c1_results_one_per_action at a concrete input. -/
theorem c1_results_one_per_action_witness :
    (completeHookUpdate (performActionsWith 0 envA [ActionConfig.str "a"] [0]) 0).results.Perm
      ([ActionConfig.str "a"].map (runAction 0 envA))
    ∧ (completeHookUpdate (performActionsWith 0 envA [ActionConfig.str "a"] [0]) 0).results.length
        = 1 := by
  have h := c1_results_one_per_action 0 envA [ActionConfig.str "a"] [0] 0 (by decide)
  exact ⟨h.1, h.2⟩

/-- Claim C4: the terminal status persisted for a cycle is "failed" iff at
least one action's recorded result is an error entry (timeouts and
synchronous throws included), and "complete" iff every action's recorded
result is a success entry. -/
theorem c4_terminal_status (t : Nat) (env : Env) (actions : List ActionConfig)
    (order : List Nat) (now : Nat)
    (hperm : order.Perm (List.range actions.length)) :
    ((completeHookUpdate (performActionsWith t env actions order) now).status = "failed"
      ↔ ∃ a ∈ actions, isErrorEntry (runAction t env a) = true)
    ∧ ((completeHookUpdate (performActionsWith t env actions order) now).status = "complete"
      ↔ ∀ a ∈ actions, isErrorEntry (runAction t env a) = false) := by
  have hres := performActions_entries t env actions order hperm
  have hstat : (performActionsWith t env actions order).status =
      if (performActionsWith t env actions order).results.any isErrorEntry
      then some "failed" else none := by
    unfold performActionsWith
    rw [foldl_pushResult_status, foldl_pushResult_results]
    simp
  have hany : (performActionsWith t env actions order).results.any isErrorEntry =
      (actions.map (runAction t env)).any isErrorEntry := by
    rw [Bool.eq_iff_iff, List.any_eq_true, List.any_eq_true]
    exact ⟨fun ⟨x, hx, hpx⟩ => ⟨x, hres.mem_iff.mp hx, hpx⟩,
      fun ⟨x, hx, hpx⟩ => ⟨x, hres.mem_iff.mpr hx, hpx⟩⟩
  by_cases h : (actions.map (runAction t env)).any isErrorEntry = true
  · have hs : (completeHookUpdate (performActionsWith t env actions order) now).status
        = "failed" := by
      simp [completeHookUpdate, hstat, hany, h]
    rw [hs]
    have hex : ∃ a ∈ actions, isErrorEntry (runAction t env a) = true := by
      rcases List.any_eq_true.mp h with ⟨r, hr, hpr⟩
      rcases List.mem_map.mp hr with ⟨a, ha, rfl⟩
      exact ⟨a, ha, hpr⟩
    constructor
    · exact ⟨fun _ => hex, fun _ => rfl⟩
    · constructor
      · intro hc
        exact absurd hc (by decide)
      · intro hall
        rcases hex with ⟨a, ha, hpa⟩
        rw [hall a ha] at hpa
        exact absurd hpa (by decide)
  · have h₀ : (actions.map (runAction t env)).any isErrorEntry = false :=
      Bool.not_eq_true _ ▸ Bool.of_not_eq_true h
    have hs : (completeHookUpdate (performActionsWith t env actions order) now).status
        = "complete" := by
      simp [completeHookUpdate, hstat, hany, h₀]
    rw [hs]
    have hall : ∀ a ∈ actions, isErrorEntry (runAction t env a) = false := by
      intro a ha
      have := List.any_eq_false.mp h₀ (runAction t env a) (List.mem_map_of_mem _ ha)
      exact Bool.not_eq_true _ ▸ this
    constructor
    · constructor
      · intro hc
        exact absurd hc (by decide)
      · intro hex
        rcases hex with ⟨a, ha, hpa⟩
        rw [hall a ha] at hpa
        exact absurd hpa (by decide)
    · exact ⟨fun _ => hall, fun _ => rfl⟩

/-- Witness for c4_terminal_status at a concrete input. -/
theorem c4_terminal_status_witness :
    ((completeHookUpdate (performActionsWith 0 envA [ActionConfig.str "a"] [0]) 0).status
        = "failed" ↔ ∃ a ∈ [ActionConfig.str "a"], isErrorEntry (runAction 0 envA a) = true)
    ∧ ((completeHookUpdate (performActionsWith 0 envA [ActionConfig.str "a"] [0]) 0).status
        = "complete" ↔ ∀ a ∈ [ActionConfig.str "a"], isErrorEntry (runAction 0 envA a) = false) :=
  c4_terminal_status 0 envA [ActionConfig.str "a"] [0] 0 (by decide)

/-- Claim C5, counterexample: with the truthy timeout 30000 and the
call-expression action doIt() whose evaluator calls back only after
1000000000 time units, the dispatch takes the str2fn branch with no
async.timeout wrapper and the action is recorded as a success output, not
as a timeout failure — refuting the conjunct that the deadline wrapping
holds for every action form including call-expression identifiers. -/
theorem c5_call_expression_counterexample :
    (30000 : Nat) ≠ 0
    ∧ isCallExpr (methodName (ActionConfig.str "doIt()")) = true
    ∧ planWrapped (planAction 30000 (ActionConfig.str "doIt()")) = false
    ∧ 30000 < (envA.callExpr "doIt()").1
    ∧ runAction 30000 envA (ActionConfig.str "doIt()")
        = ⟨"doIt()", EntryOutcome.output "done"⟩ := by
  refine ⟨by decide, by decide, by decide, by decide, by decide⟩

/-- Claim C5, amended: with a truthy timeout, plain method-path actions
(object entries included, after coercion to their method string) are
wrapped with the async.timeout deadline and a handler exceeding it is
recorded as failed with the timeout error; with a falsy timeout they run
unbounded, receiving the handler's own callback value; call-expression
actions are never wrapped and always receive the evaluator's callback
value, regardless of timeout. A slow or timed-out action never removes a
sibling's entry: for every completion interleaving the results keep one
entry per configured action. -/
theorem c5_timeout_wrapping (t : Nat) (env : Env) (a : ActionConfig) :
    (isCallExpr (methodName a) = true →
      planWrapped (planAction t a) = false
      ∧ runAction t env a =
          (match (env.callExpr (methodName a)).2 with
            | .ok o => ⟨methodName a, EntryOutcome.output o⟩
            | .err e => ⟨methodName a, EntryOutcome.error e⟩))
    ∧ (isCallExpr (methodName a) = false →
      planWrapped (planAction t a) = (t != 0)
      ∧ (∀ d r, t ≠ 0 → env.methods (methodName a) = MethodBehavior.runs d r → t < d →
          runAction t env a = ⟨methodName a, EntryOutcome.error "ETIMEDOUT"⟩)
      ∧ (∀ d r, t = 0 → env.methods (methodName a) = MethodBehavior.runs d r →
          runAction t env a =
            (match r with
              | .ok o => ⟨methodName a, EntryOutcome.output o⟩
              | .err e => ⟨methodName a, EntryOutcome.error e⟩)))
    ∧ (∀ actions order, order.Perm (List.range (List.length actions)) →
        (performActionsWith t env actions order).results.length = List.length actions) := by
  refine ⟨?_, ?_, ?_⟩
  · intro hc
    constructor
    · simp [planAction, planWrapped, hc]
    · unfold runAction
      rw [hc]
      rw [if_pos rfl]
  · intro hc
    refine ⟨by simp [planAction, planWrapped, hc], ?_, ?_⟩
    · intro d r ht hm hd
      unfold runAction
      rw [hc]
      simp only [Bool.false_eq_true, if_false, hm]
      rw [if_pos ⟨ht, hd⟩]
    · intro d r ht hm
      unfold runAction
      rw [hc]
      simp only [Bool.false_eq_true, if_false, hm, ht]
      simp
  · intro actions order hperm
    have h := performActions_entries t env actions order hperm
    rw [h.length_eq, List.length_map]

/-- Witness for c5_timeout_wrapping at a concrete input. -/
theorem c5_timeout_wrapping_witness :
    (planWrapped (planAction 30000 (ActionConfig.str "slow.method")) = ((30000 : Nat) != 0)
      ∧ runAction 30000 envA (ActionConfig.str "slow.method")
          = ⟨"slow.method", EntryOutcome.error "ETIMEDOUT"⟩)
    ∧ (performActionsWith 30000 envA [ActionConfig.str "slow.method"] [0]).results.length
        = 1 := by
  have h := c5_timeout_wrapping 30000 envA (ActionConfig.str "slow.method")
  have h₂ := h.2.1 (by decide)
  refine ⟨⟨h₂.1, ?_⟩, ?_⟩
  · exact h₂.2.1 40000 (ExecResult.ok "slow-out") (by decide) (by decide) (by decide)
  · exact h.2.2 [ActionConfig.str "slow.method"] [0] (by decide)

/-- Claim C2: every job the batch query returns has status waiting or
failed and a runAfter not in the future; with a nonzero batchSize the
batch has at most batchSize jobs; with batchSize zero (the default) the
query is unbounded and returns every eligible job. -/
theorem c2_batch_query (now limit : Nat) (store : List Job) :
    (∀ j ∈ findDueQuery now limit store,
      (j.status = "waiting" ∨ j.status = "failed") ∧ j.runAfter ≤ now)
    ∧ (limit ≠ 0 → (findDueQuery now limit store).length ≤ limit)
    ∧ (limit = 0 → findDueQuery now limit store = store.filter (dueFilter now)) := by
  refine ⟨?_, ?_, ?_⟩
  · intro j hj
    have hm : j ∈ store.filter (dueFilter now) := by
      unfold findDueQuery mongoLimit at hj
      by_cases h : limit = 0
      · simpa [h] using hj
      · rw [if_neg h] at hj
        exact List.mem_of_mem_take hj
    have hd : dueFilter now j = true := List.of_mem_filter hm
    simp only [dueFilter, Bool.and_eq_true, Bool.or_eq_true, beq_iff_eq,
      decide_eq_true_eq] at hd
    exact hd
  · intro h
    unfold findDueQuery mongoLimit
    rw [if_neg h]
    exact List.length_take_le limit (store.filter (dueFilter now))
  · intro h
    unfold findDueQuery mongoLimit
    rw [if_pos h]

/-- Witness for c2_batch_query at a concrete input. -/
theorem c2_batch_query_witness :
    ((⟨1, "waiting", 5⟩ : Job).status = "waiting" ∨ (⟨1, "waiting", 5⟩ : Job).status = "failed")
      ∧ (⟨1, "waiting", 5⟩ : Job).runAfter ≤ 10
    ∧ (findDueQuery 10 1 [⟨1, "waiting", 5⟩, ⟨2, "failed", 0⟩]).length ≤ 1 := by
  have h := c2_batch_query 10 1 [⟨1, "waiting", 5⟩, ⟨2, "failed", 0⟩]
  have h₁ := h.1 ⟨1, "waiting", 5⟩ (by decide)
  exact ⟨h₁.1, h₁.2, h.2.1 (by decide)⟩

/-- Claim C3: when the processing count observed at the start of a tick is
nonzero, the part_000 timer fetches no batch and only reschedules the next
tick, and the hooks step of lib/logHooks.js returns the empty batch
without querying. -/
theorem c3_backpressure (contEnd : Bool) (processingCount now batch : Nat)
    (store : List Job) (h : processingCount ≠ 0) :
    timerTick true contEnd processingCount now batch store = ⟨[], true⟩
    ∧ logHooksFetch processingCount now batch store = [] := by
  constructor
  · unfold timerTick
    rw [if_neg (by simp), if_pos h]
  · unfold logHooksFetch
    rw [if_neg h]

/-- Witness for c3_backpressure at a concrete input. -/
theorem c3_backpressure_witness :
    timerTick true true 3 10 0 [] = ⟨[], true⟩ ∧ logHooksFetch 3 10 0 [] = [] :=
  c3_backpressure true 3 10 0 [] (by decide)

/-- Claim C6, counterexample: when the waiting-to-processing update calls
back with an error, logHook still calls done() with no error, so the
automap pipeline proceeds and the job's actions execute — refuting the
conjunct that the cycle is aborted and none of the actions run. -/
theorem c6_abort_counterexample :
    cycleActionsRun (some "store unreachable") = true := rfl

/-- Claim C6, amended: when the waiting-to-processing status persistence
fails, the runner logs the failure but does not abort: done is invoked
with no error so the job's actions still execute; the update targeted only
the status field, so the job's other stored fields are unchanged and, the
update having failed, the job remains eligible for the next poll tick. -/
theorem c6_persist_failure_logged_not_aborted (e : String) :
    (logHook (some e)).loggedError = true
    ∧ (logHook (some e)).doneError = none
    ∧ cycleActionsRun (some e) = true
    ∧ logHookUpdateDoc.map Prod.fst = ["status"] :=
  ⟨rfl, rfl, rfl, rfl⟩

/-- Claim C7: the exported retry entry point of src/lib/retry.js has an
empty function body, so calling it with an id for which no job exists
leaves the store unchanged and never invokes its callback — in particular
it does not fail with NotFound, and no RetryExhausted ceiling check exists
anywhere in the module (settings.maxRetries is never read). Evaluated at
the failing input: an empty store and the nonexistent id 42. -/
theorem c7_retry_never_reports :
    (retryModuleExport [] 42).1 = [] ∧ (retryModuleExport [] 42).2 = none :=
  ⟨rfl, rfl⟩

/-- Claim C8: enqueueing under a name that is not a key of the configured
hooks table inserts nothing and surfaces nothing to the caller (the method
returns before touching the store); enqueueing under a configured name
appends exactly one document whose status is waiting. -/
theorem c8_enqueue (table : List (String × List ActionConfig)) (name : String)
    (data : Obj) (now : Nat) (store : List HookDoc) :
    (tableLookup table name = none → hookMethod table name data now store = store)
    ∧ (∀ acts, tableLookup table name = some acts →
        hookMethod table name data now store = store ++ [⟨name, data, "waiting", now⟩]) := by
  constructor
  · intro h
    unfold hookMethod
    rw [h]
  · intro acts h
    unfold hookMethod
    rw [h]

/-- Witness for c8_enqueue at concrete inputs: the unregistered name
installs nothing; the registered name inserts the waiting document. -/
theorem c8_enqueue_witness :
    hookMethod [("welcome", [ActionConfig.str "sendEmail"])] "unknown" [] 0 [] = []
    ∧ hookMethod [("welcome", [ActionConfig.str "sendEmail"])] "welcome" [] 0 []
        = [] ++ [⟨"welcome", [], "waiting", 0⟩] :=
  ⟨(c8_enqueue [("welcome", [ActionConfig.str "sendEmail"])] "unknown" [] 0 []).1 (by decide),
   (c8_enqueue [("welcome", [ActionConfig.str "sendEmail"])] "welcome" [] 0 []).2
     [ActionConfig.str "sendEmail"] (by decide)⟩

theorem tableLookup_append_some {α : Type} (a b : List (String × α)) (k : String)
    (v : α) (h : tableLookup a k = some v) : tableLookup (a ++ b) k = some v := by
  induction a with
  | nil => simp [tableLookup] at h
  | cons p rest ih =>
    obtain ⟨k₀, v₀⟩ := p
    rw [List.cons_append]
    simp only [tableLookup] at h ⊢
    by_cases hk : k₀ = k
    · simpa [hk] using h
    · rw [if_neg hk] at h ⊢
      exact ih h

theorem tableLookup_append_none {α : Type} (a b : List (String × α)) (k : String)
    (h : tableLookup a k = none) : tableLookup (a ++ b) k = tableLookup b k := by
  induction a with
  | nil => simp
  | cons p rest ih =>
    obtain ⟨k₀, v₀⟩ := p
    rw [List.cons_append]
    simp only [tableLookup] at h ⊢
    by_cases hk : k₀ = k
    · simp [hk] at h
    · rw [if_neg hk] at h ⊢
      exact ih h

/-- Claim C9: executing an object-form action entry merges the job's
payload into the registry's own default-data object in place
(Object.assign with the config object as target), so a payload field that
the entry's defaults lacked persists in the configuration, and a later job
whose own payload lacks that field observes the earlier job's value in its
merged actionData. -/
theorem c9_default_data_mutation (reg p₁ p₂ : Obj) (k v : String)
    (h₁ : tableLookup p₁ k = some v) (h₂ : tableLookup p₂ k = none) :
    tableLookup (registryAfter reg p₁) k = some v
    ∧ tableLookup ((actionEntryRun (registryAfter reg p₁) p₂).2) k = some v := by
  constructor
  · simpa [registryAfter, actionEntryRun, objAssign] using
      tableLookup_append_some p₁ reg k v h₁
  · show tableLookup (objAssign (objAssign reg p₁) p₂) k = some v
    unfold objAssign
    rw [tableLookup_append_none p₂ (p₁ ++ reg) k h₂]
    exact tableLookup_append_some p₁ reg k v h₁

/-- Witness for c9_default_data_mutation: a first job carrying userId 42
plants it in the config's default data, and a second job without a userId
field sees 42 in its actionData. -/
theorem c9_default_data_mutation_witness :
    tableLookup (registryAfter [] [("userId", "42")]) "userId" = some "42"
    ∧ tableLookup ((actionEntryRun (registryAfter [] [("userId", "42")]) []).2) "userId"
        = some "42" :=
  c9_default_data_mutation [] [("userId", "42")] [] "userId" "42" (by decide) (by decide)

/-- Claim C10: in every state the poll loop of src/index.js can reach from
registration, the number of pending timer callbacks plus the number of
updateHooks cycles in flight is at most one — ticks never overlap — and
once the continue-processing flag is cleared, no transition increases
either count, so no further tick is scheduled after the stop signal is
observed. -/
theorem c10_no_overlapping_cycles :
    (∀ s, SchedReachable s → s.timers + s.running ≤ 1)
    ∧ (∀ s s₁, s.cont = false → SchedStep s s₁ →
        s₁.timers ≤ s.timers ∧ s₁.running ≤ s.running) := by
  constructor
  · intro s hs
    induction hs with
    | init => simp [schedInit]
    | step _ hstep ih => cases hstep <;> simp_all <;> omega
  · intro s s₁ hc hstep
    cases hstep <;> simp_all

/-- Witness for c10_no_overlapping_cycles: the registration state, and the
transition in which a pending timer fires after the stop signal. -/
theorem c10_no_overlapping_cycles_witness :
    schedInit.timers + schedInit.running ≤ 1
    ∧ ((⟨false, 0, 0⟩ : SchedState).timers ≤ (⟨false, 1, 0⟩ : SchedState).timers
      ∧ (⟨false, 0, 0⟩ : SchedState).running ≤ (⟨false, 1, 0⟩ : SchedState).running) :=
  ⟨c10_no_overlapping_cycles.1 schedInit SchedReachable.init,
   c10_no_overlapping_cycles.2 ⟨false, 1, 0⟩ ⟨false, 0, 0⟩ rfl (SchedStep.fireSkip 0 0)⟩

end HapiHooks
